import Mathlib

/-!
Verification of the OM real-time monitor's parallelization/aggregation core.

This file gives a shallow embedding, in Lean 4, of the parts of the OM source
that the verified properties are about:

* `src/om/lib/event_management.py` — the `EventCounter` class (cadence
  decisions and the round-robin frame-request cursor);
* `src/om/data_retrieval_layer/data_event_handlers_files.py` — the static
  file-list sharding performed in
  `initialize_event_handling_on_processing_node`;
* `src/om/parallelization_layer/mpi.py` and
  `src/om/parallelization_layer/parallel_zmq.py` — the collecting node's
  receive loop (terminal-payload counting and shutdown), the processing
  node's produce/send loop (extraction-error skipping, feedback consumption,
  final and terminal payloads), and feedback fan-out.

Python dictionaries of the transport payloads are modelled as association
lists over a small value type; Python integers as `Nat`; fallible code as
`Except`.  Machine-level concerns (actual MPI/ZMQ sockets, process spawning,
wall-clock time) are outside the embedding: the loops are modelled as pure
state-passing functions of the sequences of messages the transport delivers,
which is exactly the granularity at which the verified claims are stated.
-/

/-- Values stored in the string-keyed dictionaries that OM passes between
nodes.  The claims only ever need to distinguish values, so a small closed
value type suffices. -/
inductive Val where
  | bool (b : Bool)
  | nat (n : Nat)
  | str (s : String)
deriving DecidableEq, Repr

/-- A Python dictionary with string keys, as used for OM's data records,
processed payloads and feedback messages: an ordered association list. -/
abbrev DataMap := List (String × Val)

/-- Membership test for a key, modelling Python's `key in dict`. -/
def hasKey (d : DataMap) (k : String) : Bool :=
  d.any (fun kv => kv.1 == k)

/-- Python's `dict.update`: keys already in `d` keep their position but take
the value from `fb` when present; keys only in `fb` are appended. -/
def dictUpdate (d fb : DataMap) : DataMap :=
  (d.map fun kv =>
    match List.lookup kv.1 fb with
    | some v => (kv.1, v)
    | none => kv)
  ++ fb.filter (fun kv => !(hasKey d kv.1))

/-- Error taxonomy of the embedded code paths.  `configurationFileSyntax`
models `OmConfigurationFileSyntaxError`, `invalidSource` models
`OmInvalidSourceError`, and `zeroDivision` models a Python
`ZeroDivisionError` escaping from the float division in the sharding code
(which is not an OM configuration error). -/
inductive OmError where
  | configurationFileSyntax
  | invalidSource
  | zeroDivision
deriving DecidableEq, Repr

/-! ## EventCounter (src/om/lib/event_management.py)

The mutable state of the `EventCounter` class.  The `cycle(range(1,
node_pool_size))` iterator held in `_ranks_for_frame_request` is modelled by
remembering the pool size and the number of `next` calls made so far. -/

/-- State of `EventCounter`: configured intervals, event/hit counts, pool
size, and the position of the round-robin frame-request iterator. -/
structure EventCounter where
  speed_report_interval : Option Nat := none
  data_broadcast_interval : Option Nat := none
  hit_frame_sending_interval : Option Nat := none
  non_hit_frame_sending_interval : Option Nat := none
  num_events : Nat := 0
  num_hits : Nat := 0
  node_pool_size : Nat
  frame_request_calls : Nat := 0
deriving DecidableEq, Repr

/-- `EventCounter.add_hit_event`: increments both counters. -/
def add_hit_event (c : EventCounter) : EventCounter :=
  { c with num_events := c.num_events + 1, num_hits := c.num_hits + 1 }

/-- `EventCounter.add_non_hit_event`: increments only `num_events`. -/
def add_non_hit_event (c : EventCounter) : EventCounter :=
  { c with num_events := c.num_events + 1 }

/-- `EventCounter.should_broadcast_data`.  The Python guard
`if self._data_broadcast_interval:` is falsy for both `None` and `0`. -/
def should_broadcast_data (c : EventCounter) : Bool :=
  match c.data_broadcast_interval with
  | none => false
  | some k => if k == 0 then false else c.num_events % k == 0

/-- `EventCounter.should_send_hit_frame`.  Note that the modulo is taken on
`num_events`, not on `num_hits`. -/
def should_send_hit_frame (c : EventCounter) : Bool :=
  match c.hit_frame_sending_interval with
  | none => false
  | some k => if k == 0 then false else c.num_events % k == 0

/-- `EventCounter.should_send_non_hit_frame`.  Also keyed on `num_events`. -/
def should_send_non_hit_frame (c : EventCounter) : Bool :=
  match c.non_hit_frame_sending_interval with
  | none => false
  | some k => if k == 0 then false else c.num_events % k == 0

/-- `EventCounter.get_rank_for_frame_request`: returns
`next(self._ranks_for_frame_request)` where the iterator is
`cycle(range(1, node_pool_size))`, and advances the iterator. -/
def get_rank_for_frame_request (c : EventCounter) : Nat × EventCounter :=
  ((List.range' 1 (c.node_pool_size - 1)).getD
      (c.frame_request_calls % (c.node_pool_size - 1)) 0,
   { c with frame_request_calls := c.frame_request_calls + 1 })

/-- Results of `n` successive calls to `get_rank_for_frame_request`,
starting from counter state `c`. -/
def requestSequence (c : EventCounter) : Nat → List Nat
  | 0 => []
  | n + 1 =>
    let rc := get_rank_for_frame_request c
    rc.1 :: requestSequence rc.2 n

/-! ## File-list sharding
(src/om/data_retrieval_layer/data_event_handlers_files.py, lines 180-199) -/

/-- A Python slice `xs[a:b]` for nonnegative bounds: indices are clipped to
the list length automatically. -/
def pySlice {α : Type} (xs : List α) (a b : Nat) : List α :=
  (xs.take b).drop a

/-- Ceiling division on naturals, the exact value of
`int(numpy.ceil(a / float(b)))` for positive `b` (the source computes it in
floating point; the values involved are file counts, far below the range
where the float rounds). -/
def ceilDivNat (a b : Nat) : Nat :=
  (a + b - 1) / b

/-- The shard of the file list assigned to one processing node:
`filelist[(node_rank - 1) * n : node_rank * n]` with
`n = ceil(len(filelist) / (node_pool_size - 1))`.  Used by
`PilatusFilesEventHandler.initialize_event_handling_on_processing_node`
(and identically by the Eiger, Rayonix, Lambda and Jungfrau handlers). -/
def files_curr_node {α : Type} (filelist : List α) (node_rank node_pool_size : Nat) : List α :=
  let num_files_curr_node := ceilDivNat filelist.length (node_pool_size - 1)
  pySlice filelist ((node_rank - 1) * num_files_curr_node) (node_rank * num_files_curr_node)

/-- The sharding step of `initialize_event_handling_on_processing_node`,
with its failure mode: when `node_pool_size - 1 == 0` the Python expression
`len(filelist) / float(node_pool_size - 1)` raises `ZeroDivisionError`. -/
def init_event_handling_on_processing_node {α : Type} (filelist : List α)
    (node_rank node_pool_size : Nat) : Except OmError (List α) :=
  if node_pool_size - 1 = 0 then Except.error OmError.zeroDivision
  else Except.ok (files_curr_node filelist node_rank node_pool_size)

/-- Validation performed on the `om.node_pool_size` configuration entry by
`ZmqParallelization.__init__` (`_MonitorParameters.model_validate`): the
pydantic model only requires the field to be present and an integer; no
bound (in particular no `pool_size >= 2` check) is imposed.  The input is
the field's value, or `none` when it is missing or not an integer. -/
def zmqValidateNodePoolSize : Option Int → Except OmError Int
  | some n => Except.ok n
  | none => Except.error OmError.configurationFileSyntax

/-! ## Collecting-node receive loop
(src/om/parallelization_layer/mpi.py lines 126-183,
src/om/parallelization_layer/parallel_zmq.py lines 237-295; the two backends
run the same loop logic). -/

/-- Collector-side state of the receive loop: the `_num_no_more` and
`_num_collected_events` counters, whether
`end_processing_on_collecting_node` has been invoked, and whether the
process has exited. -/
structure CollectorState where
  num_no_more : Nat
  num_collected_events : Nat
  end_processing_called : Bool
  terminated : Bool
deriving DecidableEq, Repr

/-- Collector state at the start of the receive loop. -/
def initialCollectorState : CollectorState :=
  { num_no_more := 0, num_collected_events := 0
    end_processing_called := false, terminated := false }

/-- One iteration of the collecting node's receive loop, processing one
received envelope `(payload, origin_rank)`.  A payload containing the key
`"end"` is a terminal payload: `_num_no_more` is incremented and, exactly
when it reaches `node_pool_size - 1`, `end_processing_on_collecting_node`
runs and the process shuts down.  Any other payload is passed to
`collect_data` and counted.  A terminated collector processes nothing
further (the process has exited). -/
def collectorStep (node_pool_size : Nat) (s : CollectorState)
    (msg : DataMap × Nat) : CollectorState :=
  if s.terminated then s
  else if hasKey msg.1 "end" then
    let n := s.num_no_more + 1
    if n = node_pool_size - 1 then
      { s with num_no_more := n, end_processing_called := true, terminated := true }
    else
      { s with num_no_more := n }
  else
    { s with num_collected_events := s.num_collected_events + 1 }

/-- The collecting node's receive loop over a finite arrival sequence of
envelopes, starting from the initial state. -/
def collectorRun (node_pool_size : Nat) (msgs : List (DataMap × Nat)) : CollectorState :=
  msgs.foldl (collectorStep node_pool_size) initialCollectorState

/-- Number of terminal (`"end"`-keyed) payloads in an arrival sequence. -/
def countTerminal (msgs : List (DataMap × Nat)) : Nat :=
  (msgs.filter (fun m => hasKey m.1 "end")).length

/-! ## Feedback fan-out
(src/om/parallelization_layer/mpi.py lines 159-179,
src/om/parallelization_layer/parallel_zmq.py lines 278-290). -/

/-- A ZMQ PUB topic as used for collector-to-worker feedback: either the
wildcard topic (the string `"all#"`) or a per-rank topic (the string
`f"{rank}#"`).  The trailing `#` delimiter makes distinct ranks produce
distinct, prefix-incomparable topic strings, so the string topics are in
bijection with this type. -/
inductive FeedbackDest where
  | all : FeedbackDest
  | rank (r : Nat) : FeedbackDest
deriving DecidableEq, Repr

/-- MPI feedback dispatch: for each entry of the `FeedbackMap` returned by
`collect_data`, an entry keyed `0` is sent point-to-point to every rank in
`range(1, mpi_size)`, and an entry keyed by any other rank is sent to that
rank only.  Returns the list of `(dest_rank, payload)` sends; `None`
feedback produces no sends. -/
def dispatchFeedbackMpi (node_pool_size : Nat)
    (feedback_data : Option (List (Nat × DataMap))) : List (Nat × DataMap) :=
  match feedback_data with
  | none => []
  | some entries =>
    entries.flatMap fun e =>
      if e.1 = 0 then
        (List.range' 1 (node_pool_size - 1)).map (fun target_rank => (target_rank, e.2))
      else
        [(e.1, e.2)]

/-- ZMQ feedback dispatch: each `FeedbackMap` entry becomes one PUB message;
key `0` is published on the `"all#"` topic, key `r ≠ 0` on the `f"{r}#"`
topic.  Returns the list of published `(topic, payload)` pairs. -/
def dispatchFeedbackZmq (feedback_data : Option (List (Nat × DataMap))) :
    List (FeedbackDest × DataMap) :=
  match feedback_data with
  | none => []
  | some entries =>
    entries.map fun e =>
      (if e.1 = 0 then FeedbackDest.all else FeedbackDest.rank e.1, e.2)

/-- Whether worker `r`'s SUB socket receives a message on `topic`: the
worker subscribes to its own `f"{rank}#"` topic and to `"all#"`
(`parallel_zmq.py` lines 66-67). -/
def zmqSubscribed (r : Nat) (topic : FeedbackDest) : Bool :=
  topic == FeedbackDest.all || topic == FeedbackDest.rank r

/-- The payloads delivered to worker `r` out of a list of published
`(topic, payload)` messages. -/
def zmqDelivered (r : Nat) (pubs : List (FeedbackDest × DataMap)) : List DataMap :=
  (pubs.filter fun p => zmqSubscribed r p.1).map Prod.snd

/-! ## Processing-node produce/send loop
(src/om/parallelization_layer/mpi.py lines 192-261,
src/om/parallelization_layer/parallel_zmq.py `_om_processing_node`,
lines 80-128; identical loop logic in both backends).

The loop is modelled as a function of the event sequence and of the
feedback messages the transport makes available.  Each event is paired with
the list of feedback messages that arrive before that iteration's
non-blocking probe; undelivered messages stay queued (FIFO per channel) and
the loop consumes at most one per iteration.  Runs containing a `die`/
`stop` control message are not modelled: the verified claims concern runs
that end by event-source exhaustion. -/

/-- The worker's per-event loop.  For each event: consume at most one
pending feedback message (`feedback_dict` defaults to the empty dict);
attempt `extract_data` — on `OmDataExtractionError` log, skip the event and
continue; otherwise merge the feedback into the extracted data with
`data.update(feedback_dict)`, call `process_data` and send the resulting
rank-tagged envelope to the collector. -/
def workerLoop {Event : Type} (extract : Event → Except String DataMap)
    (process : DataMap → DataMap) (rank : Nat) :
    List (Event × List DataMap) → List DataMap → List (DataMap × Nat)
  | [], _ => []
  | (ev, arrived) :: rest, pending =>
    let queue := pending ++ arrived
    let feedback_dict := queue.headD []
    let queue' := queue.tail
    match extract ev with
    | Except.error _ => workerLoop extract process rank rest queue'
    | Except.ok data =>
      (process (dictUpdate data feedback_dict), rank)
        :: workerLoop extract process rank rest queue'

/-- The terminal payload `{"end": True}` a worker sends when its event
generator is exhausted. -/
def endDict : DataMap := [("end", Val.bool true)]

/-- A complete worker run: the per-event loop starting with an empty
feedback queue, then the optional final payload returned by
`end_processing_on_processing_node`, then the mandatory terminal payload;
after sending it the worker returns (terminates). -/
def workerRun {Event : Type} (extract : Event → Except String DataMap)
    (process : DataMap → DataMap) (final_data : Option DataMap) (rank : Nat)
    (events : List (Event × List DataMap)) : List (DataMap × Nat) :=
  workerLoop extract process rank events []
    ++ (match final_data with
        | some f => [(f, rank)]
        | none => [])
    ++ [(endDict, rank)]

/-- Whether an extraction attempt succeeded. -/
def extractionOk {Event : Type} (extract : Event → Except String DataMap)
    (e : Event × List DataMap) : Bool :=
  (extract e.1).isOk

/-! # Theorems -/

/-! ## Claim C3: broadcast cadence -/

/-- Claim C3 counterexample: with `data_broadcast_interval = 5` and
`num_events = 0`, `should_broadcast_data` returns `true`, whereas the claim
states that it returns `false` when `num_events` is `0` (`0` is not a
positive multiple of `5`).  This state actually occurs in the code: the XES
monitor (`src/om/processing_layer/xes.py`) calls `should_broadcast_data`
without ever incrementing the counter. -/
theorem should_broadcast_at_zero_events :
    should_broadcast_data { data_broadcast_interval := some 5, node_pool_size := 3 } = true
    ∧ ({ data_broadcast_interval := some 5, node_pool_size := 3 } : EventCounter).num_events = 0 :=
  ⟨rfl, rfl⟩

/-- Claim C3 (amended): `should_broadcast_data` returns `true` exactly when
a broadcast interval `k` is configured (non-`None` and nonzero) and the
cumulative event count is a multiple of `k` — including the multiple `0`:
at `num_events = 0` with an interval set it returns `true`, not `false`.
When the interval is unset (`None`) or `0` it always returns `false`. -/
theorem should_broadcast_data_characterization (c : EventCounter) :
    should_broadcast_data c = true
      ↔ ∃ k, c.data_broadcast_interval = some k ∧ k ≠ 0 ∧ c.num_events % k = 0 := by
  unfold should_broadcast_data
  cases h : c.data_broadcast_interval with
  | none => simp
  | some k =>
    by_cases hk : k = 0 <;> simp [hk]

/-! ## Claim C9: hit/non-hit frame-sending cadence -/

/-- Claim C9: `should_send_hit_frame` is `true` iff `hit_frame_sending_interval`
is set (non-`None`, nonzero) and `num_events` is divisible by it, and
`should_send_non_hit_frame` likewise against its own interval; both decisions
depend only on the total event count and the respective interval — never on
`num_hits` and never on whether the current event was classified as a hit
(recording a hit or a non-hit next changes the decisions identically). -/
theorem frame_sending_cadence_counts_only (c c' : EventCounter) (m : Nat) :
    (should_send_hit_frame c = true
      ↔ ∃ k, c.hit_frame_sending_interval = some k ∧ k ≠ 0 ∧ c.num_events % k = 0)
    ∧ (should_send_non_hit_frame c = true
      ↔ ∃ k, c.non_hit_frame_sending_interval = some k ∧ k ≠ 0 ∧ c.num_events % k = 0)
    ∧ should_send_hit_frame { c with num_hits := m } = should_send_hit_frame c
    ∧ should_send_non_hit_frame { c with num_hits := m } = should_send_non_hit_frame c
    ∧ (c'.num_events = c.num_events
        → c'.hit_frame_sending_interval = c.hit_frame_sending_interval
        → should_send_hit_frame c' = should_send_hit_frame c)
    ∧ (c'.num_events = c.num_events
        → c'.non_hit_frame_sending_interval = c.non_hit_frame_sending_interval
        → should_send_non_hit_frame c' = should_send_non_hit_frame c)
    ∧ should_send_hit_frame (add_hit_event c) = should_send_hit_frame (add_non_hit_event c)
    ∧ should_send_non_hit_frame (add_hit_event c) = should_send_non_hit_frame (add_non_hit_event c) := by
  refine ⟨?_, ?_, ?_, ?_, ?_, ?_, ?_, ?_⟩
  · unfold should_send_hit_frame
    cases h : c.hit_frame_sending_interval with
    | none => simp
    | some k => by_cases hk : k = 0 <;> simp [hk]
  · unfold should_send_non_hit_frame
    cases h : c.non_hit_frame_sending_interval with
    | none => simp
    | some k => by_cases hk : k = 0 <;> simp [hk]
  · rfl
  · rfl
  · intro h1 h2
    unfold should_send_hit_frame
    rw [h1, h2]
  · intro h1 h2
    unfold should_send_non_hit_frame
    rw [h1, h2]
  · rfl
  · rfl

/-- Witness for claim C9 at a concrete counter: interval 4, 8 events,
arbitrary hit counts. -/
theorem frame_sending_cadence_counts_only_witness :
    (should_send_hit_frame { hit_frame_sending_interval := some 4, num_events := 8, node_pool_size := 3 } = true
      ↔ ∃ k, ({ hit_frame_sending_interval := some 4, num_events := 8, node_pool_size := 3 } : EventCounter).hit_frame_sending_interval = some k ∧ k ≠ 0
          ∧ ({ hit_frame_sending_interval := some 4, num_events := 8, node_pool_size := 3 } : EventCounter).num_events % k = 0)
    ∧ (should_send_non_hit_frame { hit_frame_sending_interval := some 4, num_events := 8, node_pool_size := 3 } = true
      ↔ ∃ k, ({ hit_frame_sending_interval := some 4, num_events := 8, node_pool_size := 3 } : EventCounter).non_hit_frame_sending_interval = some k ∧ k ≠ 0
          ∧ ({ hit_frame_sending_interval := some 4, num_events := 8, node_pool_size := 3 } : EventCounter).num_events % k = 0)
    ∧ should_send_hit_frame { ({ hit_frame_sending_interval := some 4, num_events := 8, node_pool_size := 3 } : EventCounter) with num_hits := 7 }
        = should_send_hit_frame { hit_frame_sending_interval := some 4, num_events := 8, node_pool_size := 3 }
    ∧ should_send_non_hit_frame { ({ hit_frame_sending_interval := some 4, num_events := 8, node_pool_size := 3 } : EventCounter) with num_hits := 7 }
        = should_send_non_hit_frame { hit_frame_sending_interval := some 4, num_events := 8, node_pool_size := 3 }
    ∧ (({ hit_frame_sending_interval := some 4, num_events := 8, num_hits := 2, node_pool_size := 3 } : EventCounter).num_events
          = ({ hit_frame_sending_interval := some 4, num_events := 8, node_pool_size := 3 } : EventCounter).num_events
        → ({ hit_frame_sending_interval := some 4, num_events := 8, num_hits := 2, node_pool_size := 3 } : EventCounter).hit_frame_sending_interval
          = ({ hit_frame_sending_interval := some 4, num_events := 8, node_pool_size := 3 } : EventCounter).hit_frame_sending_interval
        → should_send_hit_frame { hit_frame_sending_interval := some 4, num_events := 8, num_hits := 2, node_pool_size := 3 }
          = should_send_hit_frame { hit_frame_sending_interval := some 4, num_events := 8, node_pool_size := 3 })
    ∧ (({ hit_frame_sending_interval := some 4, num_events := 8, num_hits := 2, node_pool_size := 3 } : EventCounter).num_events
          = ({ hit_frame_sending_interval := some 4, num_events := 8, node_pool_size := 3 } : EventCounter).num_events
        → ({ hit_frame_sending_interval := some 4, num_events := 8, num_hits := 2, node_pool_size := 3 } : EventCounter).non_hit_frame_sending_interval
          = ({ hit_frame_sending_interval := some 4, num_events := 8, node_pool_size := 3 } : EventCounter).non_hit_frame_sending_interval
        → should_send_non_hit_frame { hit_frame_sending_interval := some 4, num_events := 8, num_hits := 2, node_pool_size := 3 }
          = should_send_non_hit_frame { hit_frame_sending_interval := some 4, num_events := 8, node_pool_size := 3 })
    ∧ should_send_hit_frame (add_hit_event { hit_frame_sending_interval := some 4, num_events := 8, node_pool_size := 3 })
        = should_send_hit_frame (add_non_hit_event { hit_frame_sending_interval := some 4, num_events := 8, node_pool_size := 3 })
    ∧ should_send_non_hit_frame (add_hit_event { hit_frame_sending_interval := some 4, num_events := 8, node_pool_size := 3 })
        = should_send_non_hit_frame (add_non_hit_event { hit_frame_sending_interval := some 4, num_events := 8, node_pool_size := 3 }) :=
  frame_sending_cadence_counts_only
    { hit_frame_sending_interval := some 4, num_events := 8, node_pool_size := 3 }
    { hit_frame_sending_interval := some 4, num_events := 8, num_hits := 2, node_pool_size := 3 } 7

/-! ## Collector loop lemmas and claim C1 -/

/-- A terminated collector is a fixed point of the receive loop: the process
has exited, so further messages change nothing. -/
theorem collectorLoop_fixed_of_terminated (node_pool_size : Nat)
    (msgs : List (DataMap × Nat)) :
    ∀ s : CollectorState, s.terminated = true →
      msgs.foldl (collectorStep node_pool_size) s = s := by
  induction msgs with
  | nil => intro s _; rfl
  | cons m rest ih =>
    intro s h
    rw [List.foldl_cons]
    have hstep : collectorStep node_pool_size s m = s := by
      simp [collectorStep, h]
    rw [hstep]
    exact ih s h

/-- Invariant of the collecting loop: starting from a live state, the final
`_num_no_more` counter equals the initial one plus the number of terminal
payloads processed, shutdown happens exactly when that sum reaches
`node_pool_size - 1` (and at least one terminal arrived), and the end-of-run
hook runs exactly at shutdown. -/
theorem collectorLoop_invariant (node_pool_size : Nat) (msgs : List (DataMap × Nat)) :
    ∀ s : CollectorState, s.terminated = false → s.end_processing_called = false →
    s.num_no_more + countTerminal msgs ≤ node_pool_size - 1 →
    (msgs.foldl (collectorStep node_pool_size) s).num_no_more
        = s.num_no_more + countTerminal msgs
    ∧ ((msgs.foldl (collectorStep node_pool_size) s).terminated = true
        ↔ 0 < countTerminal msgs
          ∧ s.num_no_more + countTerminal msgs = node_pool_size - 1)
    ∧ (msgs.foldl (collectorStep node_pool_size) s).end_processing_called
        = (msgs.foldl (collectorStep node_pool_size) s).terminated := by
  induction msgs with
  | nil =>
    intro s h1 h2 _
    simp [countTerminal, h1, h2]
  | cons m rest ih =>
    intro s h1 h2 h3
    rw [List.foldl_cons]
    by_cases hend : hasKey m.1 "end"
    · have hc : countTerminal (m :: rest) = countTerminal rest + 1 := by
        simp [countTerminal, hend]
      rw [hc] at h3 ⊢
      by_cases hn : s.num_no_more + 1 = node_pool_size - 1
      · have hstep : collectorStep node_pool_size s m
            = { s with num_no_more := s.num_no_more + 1
                       end_processing_called := true, terminated := true } := by
          simp [collectorStep, h1, hend, hn]
        have hrest : countTerminal rest = 0 := by omega
        rw [hstep, collectorLoop_fixed_of_terminated node_pool_size rest _ rfl]
        refine ⟨?_, ?_, rfl⟩
        · show s.num_no_more + 1 = s.num_no_more + (countTerminal rest + 1)
          omega
        · constructor
          · intro _
            exact ⟨by omega, by omega⟩
          · intro _
            rfl
      · have hstep : collectorStep node_pool_size s m
            = { s with num_no_more := s.num_no_more + 1 } := by
          simp [collectorStep, h1, hend, hn]
        rw [hstep]
        obtain ⟨ih1, ih2, ih3⟩ :=
          ih { s with num_no_more := s.num_no_more + 1 } h1 h2
            (show s.num_no_more + 1 + countTerminal rest ≤ node_pool_size - 1 by omega)
        refine ⟨?_, ?_, ih3⟩
        · rw [ih1]
          show s.num_no_more + 1 + countTerminal rest
              = s.num_no_more + (countTerminal rest + 1)
          omega
        · rw [ih2]
          constructor
          · rintro ⟨ha, hb⟩
            have hb' : s.num_no_more + 1 + countTerminal rest = node_pool_size - 1 := hb
            exact ⟨by omega, by omega⟩
          · rintro ⟨ha, hb⟩
            refine ⟨?_, ?_⟩
            · by_contra hzero
              have h0 : countTerminal rest = 0 := by omega
              exact hn (by omega)
            · show s.num_no_more + 1 + countTerminal rest = node_pool_size - 1
              omega
    · have hc : countTerminal (m :: rest) = countTerminal rest := by
        simp [countTerminal, hend]
      rw [hc] at h3 ⊢
      have hstep : collectorStep node_pool_size s m
          = { s with num_collected_events := s.num_collected_events + 1 } := by
        simp [collectorStep, h1, hend]
      rw [hstep]
      exact ih { s with num_collected_events := s.num_collected_events + 1 } h1 h2 h3

/-- Claim C1: for a pool of `P` nodes (one collector, `P - 1` workers), over
any arrival sequence carrying at most `P - 1` terminal (`"end"`-keyed)
payloads — each worker sends at most one — the collector invokes
`end_processing_on_collecting_node` and shuts down if and only if the
sequence contains exactly `P - 1` terminal payloads, in whatever order they
arrive; with fewer, it never shuts down. -/
theorem collector_shutdown_iff_terminals (node_pool_size : Nat)
    (msgs : List (DataMap × Nat)) (hP : 2 ≤ node_pool_size)
    (hle : countTerminal msgs ≤ node_pool_size - 1) :
    ((collectorRun node_pool_size msgs).terminated = true
        ∧ (collectorRun node_pool_size msgs).end_processing_called = true)
      ↔ countTerminal msgs = node_pool_size - 1 := by
  obtain ⟨h1, h2, h3⟩ :=
    collectorLoop_invariant node_pool_size msgs initialCollectorState rfl rfl
      (by simpa [initialCollectorState] using hle)
  unfold collectorRun
  constructor
  · rintro ⟨ht, _⟩
    obtain ⟨hpos, heq⟩ := h2.mp ht
    simp [initialCollectorState] at heq
    exact heq
  · intro hcount
    have ht := h2.mpr ⟨by omega, by simp [initialCollectorState]; omega⟩
    exact ⟨ht, by rw [h3, ht]⟩

/-- Witness for claim C1: pool of 3 nodes, one data envelope then the two
workers' terminal payloads; the collector shuts down, having seen exactly 2
terminal payloads. -/
theorem collector_shutdown_iff_terminals_witness :
    2 ≤ 3
    ∧ countTerminal [([("timestamp", Val.nat 1)], 1), (endDict, 1), (endDict, 2)] ≤ 3 - 1
    ∧ (((collectorRun 3 [([("timestamp", Val.nat 1)], 1), (endDict, 1), (endDict, 2)]).terminated = true
        ∧ (collectorRun 3 [([("timestamp", Val.nat 1)], 1), (endDict, 1), (endDict, 2)]).end_processing_called = true)
      ↔ countTerminal [([("timestamp", Val.nat 1)], 1), (endDict, 1), (endDict, 2)] = 3 - 1) :=
  ⟨by decide, by decide,
    collector_shutdown_iff_terminals 3
      [([("timestamp", Val.nat 1)], 1), (endDict, 1), (endDict, 2)]
      (by decide) (by decide)⟩

/-! ## Claim C8: startup with pool_size < 2 -/

/-- With a pool of size 1 (no workers), no step of the collecting loop can
ever reach the shutdown state: the terminal-payload counter starts at 0 and
is compared against `node_pool_size - 1 = 0` only after being incremented,
so the comparison never succeeds and the loop runs forever. -/
theorem collectorLoop_pool_one_never_terminates (msgs : List (DataMap × Nat)) :
    ∀ s : CollectorState, s.terminated = false →
      (msgs.foldl (collectorStep 1) s).terminated = false := by
  induction msgs with
  | nil => intro s h; exact h
  | cons m rest ih =>
    intro s h
    rw [List.foldl_cons]
    by_cases hend : hasKey m.1 "end"
    · have hstep : collectorStep 1 s m = { s with num_no_more := s.num_no_more + 1 } := by
        simp [collectorStep, h, hend]
      rw [hstep]
      exact ih { s with num_no_more := s.num_no_more + 1 } h
    · have hstep : collectorStep 1 s m
          = { s with num_collected_events := s.num_collected_events + 1 } := by
        simp [collectorStep, h, hend]
      rw [hstep]
      exact ih { s with num_collected_events := s.num_collected_events + 1 } h

/-- Claim C8 counterexample: a startup with `pool_size = 1 < 2` does not
fail with a `ConfigurationError`.  The ZMQ backend's parameter validation
accepts `node_pool_size = 1` without error, and the file-list sharding code
— the only cited place that touches the pool size at startup — fails with a
Python `ZeroDivisionError`, not a configuration error. -/
theorem pool_size_one_passes_startup :
    zmqValidateNodePoolSize (some 1) = Except.ok 1
    ∧ init_event_handling_on_processing_node (["frame_000.cbf"] : List String) 1 1
        = Except.error OmError.zeroDivision :=
  ⟨rfl, rfl⟩

/-- Claim C8 (amended): the code contains no `pool_size >= 2` check, so a
pool of fewer than 2 nodes is not rejected with a `ConfigurationError` at
startup: the ZMQ backend's startup validation accepts every integer pool
size (including 0 and 1); the file-list sharding of a processing node at
pool size 1 instead raises `ZeroDivisionError`; and a collector started
with pool size 1 enters its receive loop and never reaches shutdown. -/
theorem pool_size_below_two_not_rejected {α : Type} (n : Int) (filelist : List α)
    (node_rank : Nat) (msgs : List (DataMap × Nat)) :
    zmqValidateNodePoolSize (some n) = Except.ok n
    ∧ init_event_handling_on_processing_node filelist node_rank 1
        = Except.error OmError.zeroDivision
    ∧ (collectorRun 1 msgs).terminated = false :=
  ⟨rfl, rfl, collectorLoop_pool_one_never_terminates msgs initialCollectorState rfl⟩

/-! ## Claim C2: sharding is an exact partition -/

/-- Concatenating the consecutive Python slices `xs[(r-1)*n : r*n]` for
`r = 1, …, m` yields the first `m * n` elements of `xs`. -/
theorem pySlice_join {α : Type} (xs : List α) (n : Nat) :
    ∀ m, (List.range' 1 m).flatMap (fun r => pySlice xs ((r - 1) * n) (r * n))
      = xs.take (m * n) := by
  intro m
  induction m with
  | zero => simp [pySlice]
  | succ m ih =>
    have hcat : List.range' 1 (m + 1) = List.range' 1 m ++ [1 + m] := by
      simpa using @List.range'_concat 1 1 m
    rw [hcat, List.flatMap_append, ih]
    simp only [List.flatMap_cons, List.flatMap_nil, List.append_nil]
    have h1 : 1 + m - 1 = m := by omega
    rw [h1]
    show xs.take (m * n) ++ pySlice xs (m * n) ((1 + m) * n) = xs.take ((m + 1) * n)
    unfold pySlice
    have hle : m * n ≤ (1 + m) * n := Nat.mul_le_mul_right n (by omega)
    have h2 : (xs.take ((1 + m) * n)).take (m * n) = xs.take (m * n) := by
      rw [List.take_take, Nat.min_eq_left hle]
    rw [← h2, List.take_append_drop, Nat.add_comm 1 m]

/-- Ceiling division dominates: `b * ceil(a / b) ≥ a` for `b > 0`. -/
theorem le_mul_ceilDivNat (a b : Nat) (hb : 0 < b) : a ≤ b * ceilDivNat a b := by
  unfold ceilDivNat
  have h1 := Nat.div_add_mod (a + b - 1) b
  have h2 := Nat.mod_lt (a + b - 1) hb
  omega

/-- Claim C2: for every file list and pool size `P ≥ 2`, the per-worker
shards `filelist[(r-1)*ceil(L/(P-1)) : r*ceil(L/(P-1))]` computed by
`initialize_event_handling_on_processing_node` for worker ranks
`r = 1, …, P-1` concatenate, in rank order, to exactly the original list —
every element appears exactly once, with no overlaps and no gaps — and the
computation succeeds for every worker rank (a short or empty shard is not
an error). -/
theorem sharding_exact_partition {α : Type} (filelist : List α)
    (node_pool_size node_rank : Nat) (hP : 2 ≤ node_pool_size)
    (_hr1 : 1 ≤ node_rank) (_hr2 : node_rank ≤ node_pool_size - 1) :
    (List.range' 1 (node_pool_size - 1)).flatMap
        (fun r => files_curr_node filelist r node_pool_size) = filelist
    ∧ init_event_handling_on_processing_node filelist node_rank node_pool_size
        = Except.ok (files_curr_node filelist node_rank node_pool_size) := by
  have hk : 0 < node_pool_size - 1 := by omega
  constructor
  · have hjoin := pySlice_join filelist
      (ceilDivNat filelist.length (node_pool_size - 1)) (node_pool_size - 1)
    simp only [files_curr_node]
    rw [hjoin]
    exact List.take_of_length_le
      (le_mul_ceilDivNat filelist.length (node_pool_size - 1) hk)
  · unfold init_event_handling_on_processing_node
    rw [if_neg (by omega)]

/-- Witness for claim C2: a 5-element list sharded over a pool of 3 nodes
(2 workers): worker 1 gets the first 3 elements, worker 2 the remaining 2,
and together they are exactly the list. -/
theorem sharding_exact_partition_witness :
    2 ≤ 3 ∧ 1 ≤ 2 ∧ 2 ≤ 3 - 1
    ∧ ((List.range' 1 (3 - 1)).flatMap
          (fun r => files_curr_node ([10, 20, 30, 40, 50] : List Nat) r 3)
        = [10, 20, 30, 40, 50]
      ∧ init_event_handling_on_processing_node ([10, 20, 30, 40, 50] : List Nat) 2 3
        = Except.ok (files_curr_node ([10, 20, 30, 40, 50] : List Nat) 2 3)) :=
  ⟨by decide, by decide, by decide,
    sharding_exact_partition ([10, 20, 30, 40, 50] : List Nat) 3 2
      (by decide) (by decide) (by decide)⟩

/-! ## Claim C7: round-robin frame requests -/

/-- Element `i` of `range' s n`, via `getD`. -/
theorem range'_getD (s n i d : Nat) (h : i < n) :
    (List.range' s n).getD i d = s + i := by
  simp [List.getD, List.getElem?_range' _ _ h]

/-- The value returned by `get_rank_for_frame_request` is determined by the
call position: call number `i` (0-based) returns `1 + i % (P - 1)`. -/
theorem get_rank_for_frame_request_val (c : EventCounter)
    (hP : 2 ≤ c.node_pool_size) :
    (get_rank_for_frame_request c).1
      = 1 + c.frame_request_calls % (c.node_pool_size - 1) := by
  unfold get_rank_for_frame_request
  exact range'_getD 1 (c.node_pool_size - 1)
    (c.frame_request_calls % (c.node_pool_size - 1)) 0
    (Nat.mod_lt _ (by omega))

/-- Successive `get_rank_for_frame_request` results, as a map over the call
positions. -/
theorem requestSequence_eq_map (n : Nat) :
    ∀ c : EventCounter, 2 ≤ c.node_pool_size →
      requestSequence c n
        = (List.range' c.frame_request_calls n).map
            (fun i => 1 + i % (c.node_pool_size - 1)) := by
  induction n with
  | zero => intro c _; rfl
  | succ n ih =>
    intro c hP
    rw [List.range'_succ, List.map_cons]
    show (get_rank_for_frame_request c).1
        :: requestSequence { c with frame_request_calls := c.frame_request_calls + 1 } n
      = _
    rw [get_rank_for_frame_request_val c hP,
      ih { c with frame_request_calls := c.frame_request_calls + 1 } hP]

/-- In one window of `k` consecutive naturals, each residue `j < k` occurs
exactly once. -/
theorem countP_mod_window (s k j : Nat) (hk : 0 < k) (hj : j < k) :
    (List.range' s k).countP (fun i => i % k == j) = 1 := by
  have hmap : (List.range' s k).countP (fun i => i % k == j)
      = ((List.range' s k).map (fun i => i % k)).count j := by
    rw [List.count, List.countP_map]
    rfl
  rw [hmap]
  apply List.count_eq_one_of_mem
  · apply List.Nodup.map_on _ (List.nodup_range' s k)
    intro x hx y hy hxy
    rw [List.mem_range'] at hx hy
    obtain ⟨i, hi, rfl⟩ := hx
    obtain ⟨i2, hi2, rfl⟩ := hy
    simp only [Nat.one_mul] at hxy ⊢
    have hmod : i ≡ i2 [MOD k] := Nat.ModEq.add_left_cancel' s hxy
    rw [Nat.ModEq.eq_of_lt_of_lt hmod (by omega) (by omega)]
  · rw [List.mem_map]
    have h1 := Nat.div_add_mod s k
    have h2 := Nat.mod_lt s hk
    by_cases h : s % k ≤ j
    · refine ⟨k * (s / k) + j, ?_, ?_⟩
      · rw [List.mem_range']
        exact ⟨k * (s / k) + j - s, by omega, by omega⟩
      · rw [Nat.mul_add_mod]
        exact Nat.mod_eq_of_lt hj
    · refine ⟨k * (s / k + 1) + j, ?_, ?_⟩
      · rw [List.mem_range']
        refine ⟨k * (s / k + 1) + j - s, ?_, ?_⟩
        · rw [Nat.mul_succ]; omega
        · rw [Nat.mul_succ]; omega
      · rw [Nat.mul_add_mod]
        exact Nat.mod_eq_of_lt hj

/-- In any window of `m * k` consecutive naturals, each residue `j < k`
occurs exactly `m` times. -/
theorem countP_mod_window_mul (k j : Nat) (hk : 0 < k) (hj : j < k) :
    ∀ (m s : Nat), (List.range' s (m * k)).countP (fun i => i % k == j) = m := by
  intro m
  induction m with
  | zero => intro s; simp
  | succ m ih =>
    intro s
    have hsplit : List.range' s ((m + 1) * k) = List.range' s k ++ List.range' (s + k) (m * k) := by
      have := List.range'_append s k (m * k) 1
      simpa [Nat.succ_mul, Nat.add_comm (m * k) k] using this.symm
    rw [hsplit, List.countP_append, countP_mod_window s k j hk hj, ih (s + k)]
    omega

/-- Claim C7: for a pool of `P ≥ 2` nodes, over any window of `m * (P - 1)`
consecutive calls to `get_rank_for_frame_request` (starting at any point of
the cycle), each worker rank `r ∈ {1, …, P-1}` is returned exactly `m`
times; every returned value lies in `{1, …, P-1}` (rank 0 is never
returned); and the returned value is periodic in the call position with
period `P - 1`. -/
theorem frame_request_round_robin (c : EventCounter) (m r n : Nat)
    (hP : 2 ≤ c.node_pool_size) (hr1 : 1 ≤ r) (hr2 : r ≤ c.node_pool_size - 1) :
    (requestSequence c (m * (c.node_pool_size - 1))).count r = m
    ∧ ((requestSequence c n).all
        fun v => decide (1 ≤ v) && decide (v ≤ c.node_pool_size - 1)) = true
    ∧ (get_rank_for_frame_request
        { c with frame_request_calls := c.frame_request_calls + (c.node_pool_size - 1) }).1
      = (get_rank_for_frame_request c).1 := by
  have hk : 0 < c.node_pool_size - 1 := by omega
  refine ⟨?_, ?_, ?_⟩
  · rw [requestSequence_eq_map _ c hP, List.count, List.countP_map]
    have hcong : ∀ i ∈ List.range' c.frame_request_calls (m * (c.node_pool_size - 1)),
        (((fun v => v == r) ∘ fun i => 1 + i % (c.node_pool_size - 1)) i = true
          ↔ (fun i => i % (c.node_pool_size - 1) == r - 1) i = true) := by
      intro i _
      show (1 + i % (c.node_pool_size - 1) == r) = true
          ↔ (i % (c.node_pool_size - 1) == r - 1) = true
      simp only [beq_iff_eq]
      omega
    rw [List.countP_congr hcong]
    exact countP_mod_window_mul (c.node_pool_size - 1) (r - 1) hk (by omega)
      m c.frame_request_calls
  · rw [requestSequence_eq_map _ c hP, List.all_eq_true]
    intro v hv
    rw [List.mem_map] at hv
    obtain ⟨i, _, rfl⟩ := hv
    have := Nat.mod_lt i hk
    simp only [Bool.and_eq_true, decide_eq_true_eq]
    omega
  · have hleft := get_rank_for_frame_request_val
      { c with frame_request_calls := c.frame_request_calls + (c.node_pool_size - 1) } hP
    rw [hleft, get_rank_for_frame_request_val c hP]
    show 1 + (c.frame_request_calls + (c.node_pool_size - 1)) % (c.node_pool_size - 1)
        = 1 + c.frame_request_calls % (c.node_pool_size - 1)
    rw [Nat.add_mod_right]

/-- Witness for claim C7: pool of 3 nodes (workers 1 and 2), starting
mid-cycle at call position 5; in the next `2 * 2` calls rank 2 appears
exactly twice, all values stay in `{1, 2}`, and the cycle has period 2. -/
theorem frame_request_round_robin_witness :
    2 ≤ ({ node_pool_size := 3, frame_request_calls := 5 } : EventCounter).node_pool_size
    ∧ 1 ≤ 2
    ∧ 2 ≤ ({ node_pool_size := 3, frame_request_calls := 5 } : EventCounter).node_pool_size - 1
    ∧ ((requestSequence { node_pool_size := 3, frame_request_calls := 5 }
          (2 * (({ node_pool_size := 3, frame_request_calls := 5 } : EventCounter).node_pool_size - 1))).count 2 = 2
      ∧ ((requestSequence { node_pool_size := 3, frame_request_calls := 5 } 3).all
          fun v => decide (1 ≤ v)
            && decide (v ≤ ({ node_pool_size := 3, frame_request_calls := 5 } : EventCounter).node_pool_size - 1)) = true
      ∧ (get_rank_for_frame_request
            { ({ node_pool_size := 3, frame_request_calls := 5 } : EventCounter) with
              frame_request_calls :=
                ({ node_pool_size := 3, frame_request_calls := 5 } : EventCounter).frame_request_calls
                  + (({ node_pool_size := 3, frame_request_calls := 5 } : EventCounter).node_pool_size - 1) }).1
        = (get_rank_for_frame_request { node_pool_size := 3, frame_request_calls := 5 }).1) :=
  ⟨by decide, by decide, by decide,
    frame_request_round_robin { node_pool_size := 3, frame_request_calls := 5 } 2 2 3
      (by decide) (by decide) (by decide)⟩

/-! ## Worker loop lemmas and claim C4 -/

/-- The worker loop emits exactly one envelope per successfully extracted
event: skipped (`ExtractionError`) events contribute nothing, and no event
aborts the loop. -/
theorem workerLoop_length {Event : Type} (extract : Event → Except String DataMap)
    (process : DataMap → DataMap) (rank : Nat) :
    ∀ (events : List (Event × List DataMap)) (pending : List DataMap),
      (workerLoop extract process rank events pending).length
        = (events.filter (extractionOk extract)).length := by
  intro events
  induction events with
  | nil => intro pending; rfl
  | cons e rest ih =>
    intro pending
    obtain ⟨ev, arrived⟩ := e
    cases h : extract ev with
    | error msg =>
      simp [workerLoop, h, extractionOk, ih, List.filter_cons, Except.isOk, Except.toBool]
    | ok data =>
      simp [workerLoop, h, extractionOk, ih, List.filter_cons, Except.isOk, Except.toBool]

/-- Every envelope the worker loop sends comes from a successfully
extracted event: it is the processed merge of some event's extracted data
with some feedback dictionary, tagged with the worker's rank.  In
particular an event whose extraction failed is never sent. -/
theorem workerLoop_sends_from_ok {Event : Type} (extract : Event → Except String DataMap)
    (process : DataMap → DataMap) (rank : Nat) :
    ∀ (events : List (Event × List DataMap)) (pending : List DataMap),
      ∀ x ∈ workerLoop extract process rank events pending,
        ∃ e ∈ events, ∃ d fb, extract e.1 = Except.ok d
          ∧ x = (process (dictUpdate d fb), rank) := by
  intro events
  induction events with
  | nil => intro pending x hx; cases hx
  | cons e rest ih =>
    intro pending x hx
    obtain ⟨ev, arrived⟩ := e
    cases h : extract ev with
    | error msg =>
      rw [workerLoop] at hx
      simp only [h] at hx
      obtain ⟨e', he', hrest⟩ := ih _ x hx
      exact ⟨e', List.mem_cons_of_mem _ he', hrest⟩
    | ok data =>
      rw [workerLoop] at hx
      simp only [h] at hx
      rcases List.mem_cons.mp hx with heq | hmem
      · exact ⟨(ev, arrived), List.mem_cons_self _ _,
          data, (pending ++ arrived).headD [], h, heq⟩
      · obtain ⟨e', he', hrest⟩ := ih _ x hmem
        exact ⟨e', List.mem_cons_of_mem _ he', hrest⟩

/-- Claim C4: a worker run over any finite event sequence in which some
extractions raise `OmDataExtractionError` (and whose end-of-stream hook
returns `None`) logs and skips exactly the failing events: it sends one
processed envelope per successfully extracted event plus exactly one
terminal envelope, a failing event never aborts the loop, and every sent
envelope originates from a successfully extracted event — a failed event's
record never reaches the collector. -/
theorem worker_extraction_error_isolation {Event : Type}
    (extract : Event → Except String DataMap) (process : DataMap → DataMap)
    (rank : Nat) (events : List (Event × List DataMap)) (x : DataMap × Nat)
    (hproc : ∀ d, hasKey (process d) "end" = false) :
    ((workerRun extract process none rank events).filter
        fun msg => !(hasKey msg.1 "end")).length
      = (events.filter (extractionOk extract)).length
    ∧ ((workerRun extract process none rank events).filter
        fun msg => hasKey msg.1 "end").length = 1
    ∧ (x ∈ workerRun extract process none rank events → hasKey x.1 "end" = false →
        ∃ e ∈ events, ∃ d fb, extract e.1 = Except.ok d
          ∧ x = (process (dictUpdate d fb), rank)) := by
  have hloop : ∀ y ∈ workerLoop extract process rank events [],
      hasKey y.1 "end" = false := by
    intro y hy
    obtain ⟨e, _, d, fb, _, rfl⟩ :=
      workerLoop_sends_from_ok extract process rank events [] y hy
    exact hproc (dictUpdate d fb)
  refine ⟨?_, ?_, ?_⟩
  · unfold workerRun
    rw [List.filter_append, List.filter_append]
    have h1 : (workerLoop extract process rank events []).filter
        (fun msg => !(hasKey msg.1 "end"))
        = workerLoop extract process rank events [] := by
      rw [List.filter_eq_self]
      intro a ha
      rw [hloop a ha]
      rfl
    have hend : hasKey endDict "end" = true := by decide
    have h2 : ([(endDict, rank)].filter fun msg => !(hasKey msg.1 "end")) = [] := by
      simp [List.filter_cons, hend]
    simp only [h1, h2]
    simp [workerLoop_length extract process rank events []]
  · unfold workerRun
    rw [List.filter_append, List.filter_append]
    have h1 : (workerLoop extract process rank events []).filter
        (fun msg => hasKey msg.1 "end") = [] := by
      rw [List.filter_eq_nil_iff]
      intro a ha
      rw [hloop a ha]
      exact Bool.false_ne_true
    have hend : hasKey endDict "end" = true := by decide
    have h2 : ([(endDict, rank)].filter fun msg => hasKey msg.1 "end")
        = [(endDict, rank)] := by
      simp [List.filter_cons, hend]
    simp [h1, h2]
  · intro hx hnotend
    unfold workerRun at hx
    rcases List.mem_append.mp hx with hx' | hlast
    · rcases List.mem_append.mp hx' with hx'' | hfin
      · exact workerLoop_sends_from_ok extract process rank events [] x hx''
      · cases hfin
    · rcases List.mem_singleton.mp hlast with rfl
      have hend : hasKey endDict "end" = true := by decide
      rw [hnotend] at hend
      cases hend

/-- Witness for claim C4: five events of which the third fails extraction;
the run sends 4 processed envelopes and exactly 1 terminal envelope, and
every non-terminal envelope comes from a successful event. -/
theorem worker_extraction_error_isolation_witness :
    (∀ d, hasKey ((fun _ : DataMap => [("spectrum", Val.nat 0)]) d) "end" = false)
    ∧ (((workerRun
          (fun e : Nat => if e = 3 then Except.error "bad" else Except.ok [("val", Val.nat e)])
          (fun _ : DataMap => [("spectrum", Val.nat 0)]) none 1
          [(1, []), (2, []), (3, []), (4, []), (5, [])]).filter
            fun msg => !(hasKey msg.1 "end")).length
        = ([((1 : Nat), ([] : List DataMap)), (2, []), (3, []), (4, []), (5, [])].filter
            (extractionOk fun e => if e = 3 then Except.error "bad" else Except.ok [("val", Val.nat e)])).length
      ∧ (((workerRun
          (fun e : Nat => if e = 3 then Except.error "bad" else Except.ok [("val", Val.nat e)])
          (fun _ : DataMap => [("spectrum", Val.nat 0)]) none 1
          [(1, []), (2, []), (3, []), (4, []), (5, [])]).filter
            fun msg => hasKey msg.1 "end").length = 1)
      ∧ (((endDict, 1) : DataMap × Nat) ∈ workerRun
            (fun e : Nat => if e = 3 then Except.error "bad" else Except.ok [("val", Val.nat e)])
            (fun _ : DataMap => [("spectrum", Val.nat 0)]) none 1
            [(1, []), (2, []), (3, []), (4, []), (5, [])]
          → hasKey (endDict, (1 : Nat)).1 "end" = false
          → ∃ e ∈ [((1 : Nat), ([] : List DataMap)), (2, []), (3, []), (4, []), (5, [])],
              ∃ d fb, (if e.1 = 3 then Except.error "bad" else Except.ok [("val", Val.nat e.1)]) = Except.ok d
                ∧ ((endDict, 1) : DataMap × Nat) = ((fun _ : DataMap => [("spectrum", Val.nat 0)]) (dictUpdate d fb), 1))) :=
  ⟨fun _ => rfl,
    worker_extraction_error_isolation
      (fun e : Nat => if e = 3 then Except.error "bad" else Except.ok [("val", Val.nat e)])
      (fun _ : DataMap => [("spectrum", Val.nat 0)]) 1
      [(1, []), (2, []), (3, []), (4, []), (5, [])] (endDict, 1)
      (fun _ => rfl)⟩

/-! ## Claim C5: terminal payload ordering -/

/-- Claim C5: in a complete worker run, the terminal (`"end"`-keyed) payload
is sent exactly once, as the very last message — hence only after the event
generator is exhausted and strictly after the final payload (if any)
returned by `end_processing_on_processing_node`, which is itself sent
immediately before it; after the terminal payload the worker terminates
(the run produces nothing further). -/
theorem worker_terminal_once_and_last {Event : Type}
    (extract : Event → Except String DataMap) (process : DataMap → DataMap)
    (final_data : Option DataMap) (rank : Nat)
    (events : List (Event × List DataMap)) (f : DataMap)
    (hproc : ∀ d, hasKey (process d) "end" = false)
    (hfin : ∀ g, final_data = some g → hasKey g "end" = false) :
    (workerRun extract process final_data rank events).getLast? = some (endDict, rank)
    ∧ ((workerRun extract process final_data rank events).filter
        fun msg => hasKey msg.1 "end").length = 1
    ∧ (final_data = some f →
        (workerRun extract process final_data rank events).dropLast.getLast?
          = some (f, rank)) := by
  have hloop : ∀ y ∈ workerLoop extract process rank events [],
      hasKey y.1 "end" = false := by
    intro y hy
    obtain ⟨e, _, d, fb, _, rfl⟩ :=
      workerLoop_sends_from_ok extract process rank events [] y hy
    exact hproc (dictUpdate d fb)
  have hend : hasKey endDict "end" = true := by decide
  refine ⟨?_, ?_, ?_⟩
  · unfold workerRun
    rw [List.getLast?_concat]
  · unfold workerRun
    rw [List.filter_append, List.filter_append]
    have h1 : (workerLoop extract process rank events []).filter
        (fun msg => hasKey msg.1 "end") = [] := by
      rw [List.filter_eq_nil_iff]
      intro a ha
      rw [hloop a ha]
      exact Bool.false_ne_true
    have h3 : ([(endDict, rank)].filter fun msg => hasKey msg.1 "end")
        = [(endDict, rank)] := by
      simp [List.filter_cons, hend]
    rw [h1, h3]
    cases hfd : final_data with
    | none => simp
    | some g =>
      have h2 : ([(g, rank)].filter fun msg => hasKey msg.1 "end") = [] := by
        simp [List.filter_cons, hfin g hfd]
      simp [h2]
  · intro hsome
    unfold workerRun
    rw [hsome]
    show ((workerLoop extract process rank events [] ++ [(f, rank)])
        ++ [(endDict, rank)]).dropLast.getLast? = some (f, rank)
    rw [List.dropLast_concat, List.getLast?_concat]

/-- Witness for claim C5: two events, one of which fails extraction, an
end-of-stream payload, rank 2: the terminal payload is last, unique, and
immediately preceded by the final payload. -/
theorem worker_terminal_once_and_last_witness :
    (∀ d, hasKey ((fun _ : DataMap => [("spectrum", Val.nat 0)]) d) "end" = false)
    ∧ (∀ g, (some [("sum", Val.nat 10)] : Option DataMap) = some g → hasKey g "end" = false)
    ∧ ((workerRun
          (fun e : Nat => if e = 1 then Except.error "bad" else Except.ok [("val", Val.nat e)])
          (fun _ : DataMap => [("spectrum", Val.nat 0)])
          (some [("sum", Val.nat 10)]) 2 [(1, []), (2, [])]).getLast? = some (endDict, 2)
      ∧ ((workerRun
          (fun e : Nat => if e = 1 then Except.error "bad" else Except.ok [("val", Val.nat e)])
          (fun _ : DataMap => [("spectrum", Val.nat 0)])
          (some [("sum", Val.nat 10)]) 2 [(1, []), (2, [])]).filter
            fun msg => hasKey msg.1 "end").length = 1
      ∧ ((some [("sum", Val.nat 10)] : Option DataMap) = some [("sum", Val.nat 10)] →
          (workerRun
            (fun e : Nat => if e = 1 then Except.error "bad" else Except.ok [("val", Val.nat e)])
            (fun _ : DataMap => [("spectrum", Val.nat 0)])
            (some [("sum", Val.nat 10)]) 2 [(1, []), (2, [])]).dropLast.getLast?
            = some ([("sum", Val.nat 10)], 2))) :=
  ⟨fun _ => rfl, fun g hg => by cases hg; decide,
    worker_terminal_once_and_last
      (fun e : Nat => if e = 1 then Except.error "bad" else Except.ok [("val", Val.nat e)])
      (fun _ : DataMap => [("spectrum", Val.nat 0)])
      (some [("sum", Val.nat 10)]) 2 [(1, []), (2, [])] [("sum", Val.nat 10)]
      (fun _ => rfl) (fun g hg => by cases hg; decide)⟩

/-! ## Claim C10: feedback consumed by a skipped record is lost -/

/-- Claim C10: on a worker, a pending feedback message is consumed from the
transport before the current record's extraction runs.  If the extraction
then raises `OmDataExtractionError`, the already-consumed feedback map is
discarded together with the skipped record: the rest of the run is
identical, message for message, to a run in which that feedback was never
delivered — it is not retained and is never merged into any later record.
If instead the extraction succeeds, the consumed feedback is merged into
exactly that record's payload. -/
theorem feedback_lost_on_skipped_record {Event : Type}
    (extract : Event → Except String DataMap) (process : DataMap → DataMap)
    (rank : Nat) (ev : Event) (f d : DataMap)
    (rest : List (Event × List DataMap)) (msg : String) :
    (extract ev = Except.error msg →
      workerLoop extract process rank ((ev, [f]) :: rest) []
        = workerLoop extract process rank ((ev, []) :: rest) [])
    ∧ (extract ev = Except.ok d →
      workerLoop extract process rank ((ev, [f]) :: rest) []
        = (process (dictUpdate d f), rank) :: workerLoop extract process rank rest []) := by
  constructor
  · intro h
    show workerLoop extract process rank ((ev, [f]) :: rest) []
        = workerLoop extract process rank ((ev, []) :: rest) []
    rw [workerLoop, workerLoop]
    simp only [h]
    rfl
  · intro h
    rw [workerLoop]
    simp only [h]
    rfl

/-- Witness for claim C10: a feedback map `{"x": 1}` delivered right before
an event whose extraction fails; the run equals the run without that
feedback. -/
theorem feedback_lost_on_skipped_record_witness :
    ((if (0 : Nat) = 0 then Except.error "bad" else Except.ok [("val", Val.nat 0)])
        = Except.error "bad" →
      workerLoop (fun e : Nat => if e = 0 then Except.error "bad" else Except.ok [("val", Val.nat e)])
          (fun d : DataMap => d) 1 ((0, [[("x", Val.nat 1)]]) :: [(2, [])]) []
        = workerLoop (fun e : Nat => if e = 0 then Except.error "bad" else Except.ok [("val", Val.nat e)])
          (fun d : DataMap => d) 1 ((0, []) :: [(2, [])]) [])
    ∧ ((if (0 : Nat) = 0 then Except.error "bad" else Except.ok [("val", Val.nat 0)])
        = Except.ok [("v", Val.nat 2)] →
      workerLoop (fun e : Nat => if e = 0 then Except.error "bad" else Except.ok [("val", Val.nat e)])
          (fun d : DataMap => d) 1 ((0, [[("x", Val.nat 1)]]) :: [(2, [])]) []
        = ((fun d : DataMap => d) (dictUpdate [("v", Val.nat 2)] [("x", Val.nat 1)]), 1)
            :: workerLoop (fun e : Nat => if e = 0 then Except.error "bad" else Except.ok [("val", Val.nat e)])
              (fun d : DataMap => d) 1 [(2, [])] []) :=
  feedback_lost_on_skipped_record
    (fun e : Nat => if e = 0 then Except.error "bad" else Except.ok [("val", Val.nat e)])
    (fun d : DataMap => d) 1 0 [("x", Val.nat 1)] [("v", Val.nat 2)] [(2, [])] "bad"

/-! ## Claim C6: feedback fan-out targeting -/

/-- Claim C6: for a `FeedbackMap` returned by `collect_data`, every entry
keyed by the "all" target (rank key 0) is delivered to every worker rank
`1 … P-1` — by per-rank point-to-point sends in the MPI backend and via the
`"all#"` publish topic in the ZMQ backend — while an entry keyed by a
specific nonzero rank is delivered to exactly that rank; and when
`collect_data` returns `None`, nothing is sent at all.  Stated as: worker
`r` (with `1 ≤ r ≤ P-1`) receives payload `d` iff the map contains `d`
under key 0 or under key `r`. -/
theorem feedback_dispatch_targets (node_pool_size r : Nat)
    (entries : List (Nat × DataMap)) (d : DataMap)
    (hr1 : 1 ≤ r) (hr2 : r ≤ node_pool_size - 1) :
    dispatchFeedbackMpi node_pool_size none = []
    ∧ dispatchFeedbackZmq none = []
    ∧ ((r, d) ∈ dispatchFeedbackMpi node_pool_size (some entries)
        ↔ (0, d) ∈ entries ∨ (r, d) ∈ entries)
    ∧ (d ∈ zmqDelivered r (dispatchFeedbackZmq (some entries))
        ↔ (0, d) ∈ entries ∨ (r, d) ∈ entries) := by
  refine ⟨rfl, rfl, ?_, ?_⟩
  · show (r, d) ∈ entries.flatMap _ ↔ _
    rw [List.mem_flatMap]
    constructor
    · rintro ⟨⟨k, p⟩, he, hmem⟩
      dsimp only at hmem
      by_cases h0 : k = 0
      · subst h0
        rw [if_pos rfl] at hmem
        rw [List.mem_map] at hmem
        obtain ⟨t, _, heq⟩ := hmem
        have hpd : p = d := congrArg Prod.snd heq
        subst hpd
        exact Or.inl he
      · rw [if_neg h0] at hmem
        rw [List.mem_singleton] at hmem
        rw [← hmem] at he
        exact Or.inr he
    · rintro (h | h)
      · refine ⟨(0, d), h, ?_⟩
        dsimp only
        rw [if_pos rfl, List.mem_map]
        refine ⟨r, ?_, rfl⟩
        rw [List.mem_range']
        exact ⟨r - 1, by omega, by omega⟩
      · refine ⟨(r, d), h, ?_⟩
        dsimp only
        rw [if_neg (by omega : ¬(r = 0))]
        exact List.mem_singleton.mpr rfl
  · show d ∈ zmqDelivered r (entries.map _) ↔ _
    unfold zmqDelivered
    constructor
    · intro hd
      rw [List.mem_map] at hd
      obtain ⟨q, hq, hqd⟩ := hd
      rw [List.mem_filter] at hq
      obtain ⟨hqmem, hqsub⟩ := hq
      rw [List.mem_map] at hqmem
      obtain ⟨⟨k, p⟩, he, heq⟩ := hqmem
      dsimp only at heq
      subst heq
      have hpd : p = d := hqd
      subst hpd
      by_cases h0 : k = 0
      · subst h0
        exact Or.inl he
      · rw [if_neg h0] at hqsub
        unfold zmqSubscribed at hqsub
        simp only [beq_iff_eq, Bool.or_eq_true, decide_eq_true_eq] at hqsub
        rcases hqsub with hbad | hkr
        · cases hbad
        · rcases hkr with ⟨⟩
          exact Or.inr he
    · rintro (h | h)
      · rw [List.mem_map]
        refine ⟨(FeedbackDest.all, d), ?_, rfl⟩
        rw [List.mem_filter]
        constructor
        · rw [List.mem_map]
          refine ⟨(0, d), h, ?_⟩
          dsimp only
          rw [if_pos rfl]
        · rfl
      · rw [List.mem_map]
        refine ⟨(FeedbackDest.rank r, d), ?_, rfl⟩
        rw [List.mem_filter]
        constructor
        · rw [List.mem_map]
          refine ⟨(r, d), h, ?_⟩
          dsimp only
          rw [if_neg (by omega : ¬(r = 0))]
        · simp [zmqSubscribed]

/-- Witness for claim C6: pool of 3 nodes, feedback map with an "all" entry
and an entry for rank 2, checked for worker rank 1. -/
theorem feedback_dispatch_targets_witness :
    1 ≤ 1 ∧ 1 ≤ 3 - 1
    ∧ (dispatchFeedbackMpi 3 none = []
      ∧ dispatchFeedbackZmq none = []
      ∧ ((1, [("x", Val.nat 1)]) ∈ dispatchFeedbackMpi 3
            (some [(0, [("x", Val.nat 1)]), (2, [("y", Val.nat 2)])])
          ↔ ((0 : Nat), [("x", Val.nat 1)]) ∈ [((0 : Nat), [("x", Val.nat 1)]), (2, [("y", Val.nat 2)])]
            ∨ ((1 : Nat), [("x", Val.nat 1)]) ∈ [((0 : Nat), [("x", Val.nat 1)]), (2, [("y", Val.nat 2)])])
      ∧ ([("x", Val.nat 1)] ∈ zmqDelivered 1 (dispatchFeedbackZmq
            (some [(0, [("x", Val.nat 1)]), (2, [("y", Val.nat 2)])]))
          ↔ ((0 : Nat), [("x", Val.nat 1)]) ∈ [((0 : Nat), [("x", Val.nat 1)]), (2, [("y", Val.nat 2)])]
            ∨ ((1 : Nat), [("x", Val.nat 1)]) ∈ [((0 : Nat), [("x", Val.nat 1)]), (2, [("y", Val.nat 2)])])) :=
  ⟨by decide, by decide,
    feedback_dispatch_targets 3 1
      [(0, [("x", Val.nat 1)]), (2, [("y", Val.nat 2)])] [("x", Val.nat 1)]
      (by decide) (by decide)⟩
